import Mathlib

/-!
# Verification of the Blackjack command transport layer

Shallow embedding of `src/commands/games/blackjack.ts` (the Discord command
handler for the Blackjack game) together with spec-level models of the game
engine interface it consumes (`components/games/blackjack`, which is outside
the given sources).

The embedding mirrors the TypeScript source:
* the bet constants and `validateBetAmount`;
* `reactFilter`, the reaction-to-action mapping inside
  `performActionFromReaction`, `getBalanceChange`, `getEmbedColourFromGame`;
* a pure trace model of `messageRun`'s control flow, with the engine's
  `performGameAction` supplied as an oracle consumed one call at a time, and
  each loop iteration driven by an input event (a collected reaction or a
  collector timeout).
-/

namespace Blackjack

/-- The stage of a blackjack game as observed by the command handler.
Modelled from the spec: the engine's `BlackjackStage` enum is not in the given
sources; the spec states the externally observed stages are IN_PROGRESS and
DONE. -/
inductive BlackjackStage where
  | IN_PROGRESS
  | DONE
deriving DecidableEq, Repr

/-- The actions accepted by the engine's `performGameAction`:
HIT, STAND or QUIT. -/
inductive BlackjackAction where
  | HIT
  | STAND
  | QUIT
deriving DecidableEq, Repr

/-- A playing card as used by the command handler (`card.text`,
`card.suite`). -/
structure Card where
  text : String
  suite : String
deriving DecidableEq, Repr

/-- `BlackjackHand` is an ordered sequence of cards. -/
abbrev BlackjackHand := List Card

/-- The engine's `GameState` record, with the fields the command handler
reads: `stage`, `bet`, `amountWon`, `surrendered`, the two hands and the two
value sets, plus the owner keys. -/
structure GameState where
  playerId : String
  channelId : String
  bet : Int
  amountWon : Int
  stage : BlackjackStage
  surrendered : Bool
  playerCards : BlackjackHand
  dealerCards : BlackjackHand
  playerValue : List Int
  dealerValue : List Int
deriving DecidableEq, Repr

/-- `DEFAULT_BET` from the source. -/
def DEFAULT_BET : Int := 10

/-- `MIN_BET` from the source. -/
def MIN_BET : Int := 10

/-- `MAX_BET` from the source. -/
def MAX_BET : Int := 1000000

/-- `validateBetAmount`: returns an error message for a bet below `MIN_BET`
or above `MAX_BET`, and the empty string otherwise. -/
def validateBetAmount (amount : Int) : String :=
  if amount < MIN_BET then "minimum bet is 10 Codey coins."
  else if amount > MAX_BET then "maximum bet is 1000000 Codey coins."
  else ""

/-- A Discord user, reduced to the `id` field the handler reads. -/
structure User where
  id : String
deriving DecidableEq, Repr

/-- A Discord message reaction, reduced to `emoji.name` (which may be
null). -/
structure MessageReaction where
  emojiName : Option String
deriving DecidableEq, Repr

/-- `reactFilter`: true iff the reaction's emoji name is non-null, is one of
🇸, 🇭, 🇶, and the reacting user is the game's player. -/
def reactFilter (reaction : MessageReaction) (user : User) (authorId : String) : Bool :=
  reaction.emojiName.isSome
    && (reaction.emojiName.any fun n => n == "🇸" || n == "🇭" || n == "🇶")
    && user.id == authorId

/-- The switch inside `performActionFromReaction`: maps the collected
reaction's emoji name to the blackjack action to submit, and to none (no
engine call, null result) in the default case. -/
def blackjackActionFromEmoji (name : Option String) : Option BlackjackAction :=
  match name with
  | some n =>
    if n = "🇸" then some BlackjackAction.STAND
    else if n = "🇭" then some BlackjackAction.HIT
    else if n = "🇶" then some BlackjackAction.QUIT
    else none
  | none => none

/-- `performActionFromReaction`, with the engine's `performGameAction`
(specialised to the player) passed as a function: submits the action mapped
from the first collected reaction, or returns null without an engine call. -/
def performActionFromReaction (engine : BlackjackAction → Option GameState)
    (collected : Option MessageReaction) : Option GameState :=
  match blackjackActionFromEmoji (collected.bind MessageReaction.emojiName) with
  | some a => engine a
  | none => none

/-- `getBalanceChange`: the player's net gain or loss,
`game.amountWon - game.bet`. -/
def getBalanceChange (game : GameState) : Int :=
  game.amountWon - game.bet

/-- `getEmbedColourFromGame`: Yellow while in progress; once DONE, Red for a
net loss, Green for a net win, Orange otherwise. -/
def getEmbedColourFromGame (game : GameState) : String :=
  if game.stage = BlackjackStage.DONE then
    if getBalanceChange game < 0 then "Red"
    else if getBalanceChange game > 0 then "Green"
    else "Orange"
  else "Yellow"

/-- The `time` option passed to `awaitReactions` in `handlePlayerAction`:
the reaction collector's timeout in milliseconds. -/
def awaitReactionsTime : Nat := 60000

/-- One input event for a loop iteration of `messageRun`: either
`awaitReactions` yields a collected reaction (one that passed `reactFilter`),
or it rejects with a timeout error. -/
inductive LoopInput where
  | reaction (r : MessageReaction)
  | timeout
deriving DecidableEq, Repr

/-- One call to the engine's `performGameAction`: the action submitted and
the game state (or null) the engine returned. -/
abbrev EngineCall := BlackjackAction × Option GameState

/-- Result of one iteration of the `messageRun` game loop: the value of the
`game` variable afterwards, and the engine calls made, in order. -/
structure IterResult where
  game : Option GameState
  calls : List EngineCall
deriving Repr

/-- The catch block of the game loop: submit QUIT on the player's behalf,
then force the stage of a non-null result to DONE
(`if (game) game.stage = BlackjackStage.DONE`). `acc` holds the engine calls
already made in this iteration before the exception. -/
def loopCatch (oracle : Nat → BlackjackAction → Option GameState) (k : Nat)
    (acc : List EngineCall) : IterResult :=
  match oracle k BlackjackAction.QUIT with
  | some g =>
      ⟨some { g with stage := BlackjackStage.DONE },
        acc ++ [(BlackjackAction.QUIT, some g)]⟩
  | none => ⟨none, acc ++ [(BlackjackAction.QUIT, none)]⟩

/-- The rest of the try block after `performActionFromReaction` submitted
action `a` and the engine replied `reply`: re-rendering the embed from
`game!` succeeds on a non-null reply and throws on a null one, in which case
the catch block runs (with the one engine call already made). -/
def afterAction (oracle : Nat → BlackjackAction → Option GameState) (k : Nat)
    (a : BlackjackAction) : Option GameState → IterResult
  | some g' => ⟨some g', [(a, some g')]⟩
  | none => loopCatch oracle (k + 1) [(a, none)]

/-- One iteration of the game loop, as a function of the input event. The try
block runs `handlePlayerAction` (which throws on collector timeout) and then
re-renders the embed; any exception runs the catch block. The oracle is
indexed by the number of engine calls made so far. -/
def loopIter (oracle : Nat → BlackjackAction → Option GameState) (k : Nat)
    (input : LoopInput) : IterResult :=
  match input with
  | LoopInput.timeout => loopCatch oracle k []
  | LoopInput.reaction r =>
    match blackjackActionFromEmoji r.emojiName with
    | some a => afterAction oracle k a (oracle k a)
    | none => loopCatch oracle k []

/-- Result of running the game loop to completion on the given inputs: `res`
is `some game?` when the loop exited with the `game` variable holding
`game?`, and `none` when the supplied inputs ended while the game was still
in progress (the execution is only partially observed). -/
structure LoopResult where
  res : Option (Option GameState)
  calls : List EngineCall
deriving Repr

/-- The `while (game && game?.stage != BlackjackStage.DONE)` loop of
`messageRun`, consuming one input event per iteration. -/
def runLoop (oracle : Nat → BlackjackAction → Option GameState) (k : Nat)
    (inputs : List LoopInput) (game : Option GameState) : LoopResult :=
  match game with
  | none => ⟨some none, []⟩
  | some g =>
    if g.stage = BlackjackStage.DONE then ⟨some (some g), []⟩
    else
      match inputs with
      | [] => ⟨none, []⟩
      | input :: rest =>
        let it := loopIter oracle k input
        let r := runLoop oracle (k + it.calls.length) rest it.game
        ⟨r.res, it.calls ++ r.calls⟩

/-- The distinct `CodeyUserError` messages `messageRun` can raise. -/
inductive UserErrorMsg where
  /-- 'please enter a valid bet amount.' (integer parse failure) -/
  | invalidBetAmount
  /-- the non-empty string returned by `validateBetAmount` -/
  | betValidation (s : String)
  /-- the insufficient-balance message -/
  | insufficientBalance
  /-- 'please finish your current game before starting another one!' -/
  | gameAlreadyActive
deriving DecidableEq, Repr

/-- The environment of one `messageRun` execution: the argument state, the
player's coin balance, the engine's reply to `startGame`, the
`performGameAction` oracle, and the stream of loop input events. -/
structure Env where
  /-- `args.finished`: the command was invoked with no bet argument. -/
  argsFinished : Bool
  /-- result of `args.rest('integer')`: the parsed bet, or none on failure. -/
  argsParsed : Option Int
  /-- `getCoinBalanceByUserId(author.id)` (used through a non-null
  assertion). -/
  playerBalance : Int
  /-- the engine's reply to `startGame(bet, author.id, channel.id)`. -/
  startGameResult : Option GameState
  /-- the engine's `performGameAction`, indexed by call count. -/
  oracle : Nat → BlackjackAction → Option GameState
  /-- the loop input events, one per loop iteration. -/
  inputs : List LoopInput

/-- Observable trace of one `messageRun` execution. -/
structure RunTrace where
  /-- the `CodeyUserError` raised, if any. -/
  userError : Option UserErrorMsg
  /-- whether `startGame` was invoked. -/
  startGameCalled : Bool
  /-- every `performGameAction` call made by the game loop, in order. -/
  engineCalls : List EngineCall
  /-- the loop's exit value of `game` (`none` while the execution is only
  partially observed). -/
  finalGame : Option (Option GameState)
  /-- whether `endGame(playerId)` was invoked. -/
  endGameCalled : Bool
  /-- the delta passed to `adjustCoinBalanceByUserId`, if it was invoked. -/
  balanceAdjusted : Option Int
deriving Repr

/-- The bet resolution at the top of `messageRun`: the default bet when no
argument was given, otherwise the integer parse result. -/
def resolvedBet (env : Env) : Option Int :=
  if env.argsFinished then some DEFAULT_BET else env.argsParsed

/-- Trace of a `messageRun` execution that ended in a `CodeyUserError` being
raised and sent to the user; `started` records whether the error was raised
after the `startGame` call. -/
def errTrace (e : UserErrorMsg) (started : Bool) : RunTrace :=
  ⟨some e, started, [], none, false, none⟩

/-- Trace of the tail of `messageRun` after a started game: the loop result
becomes the final game, and a non-null finished game is settled through
`endGame` followed by a balance adjustment of `getBalanceChange`
(`this.endGame(msg, author.id, this.getBalanceChange(game))`). -/
def settleTrace (r : LoopResult) : RunTrace :=
  match r.res with
  | none => ⟨none, true, r.calls, none, false, none⟩
  | some none => ⟨none, true, r.calls, some none, false, none⟩
  | some (some g) =>
      ⟨none, true, r.calls, some (some g), true, some (getBalanceChange g)⟩

/-- Pure trace model of `messageRun`: resolve the bet, validate it, check
the balance, start the game, run the game loop, and settle. -/
def messageRun (env : Env) : RunTrace :=
  match resolvedBet env with
  | none => errTrace UserErrorMsg.invalidBetAmount false
  | some bet =>
    if validateBetAmount bet = "" then
      if env.playerBalance < bet then
        errTrace UserErrorMsg.insufficientBalance false
      else
        match env.startGameResult with
        | none => errTrace UserErrorMsg.gameAlreadyActive true
        | some game0 => settleTrace (runLoop env.oracle 0 env.inputs (some game0))
    else
      errTrace (UserErrorMsg.betValidation (validateBetAmount bet)) false

/-- Modelled from the spec: the engine's QUIT transition is not in the given
sources; per the spec, QUIT marks `surrendered = true`, settles as a full
loss (`amountWon = 0`) regardless of current hand value, and moves the stage
to DONE. -/
def quitTransition (g : GameState) : GameState :=
  { g with surrendered := true, amountWon := 0, stage := BlackjackStage.DONE }

/-- Modelled from the spec: `performGameAction(playerId, QUIT)` for the
registry entry of one player (`registry` is that player's entry, if any);
the transition requires an existing game whose stage is IN_PROGRESS and
otherwise returns null. -/
def performQuit (registry : Option GameState) : Option GameState :=
  match registry with
  | some g =>
      if g.stage = BlackjackStage.IN_PROGRESS then some (quitTransition g)
      else none
  | none => none

/-- Modelled from the spec: `startGame` fails (returns null) if the registry
already holds an active game for the player; otherwise it registers and
returns the freshly dealt game `fresh`. -/
def startGameSpec (registry : Option GameState) (fresh : GameState) : Option GameState :=
  match registry with
  | some _ => none
  | none => some fresh

/-- The engine consistency property the spec implies for one player's
`performGameAction` calls within a single `messageRun`: a null reply means
the player has no game in stage IN_PROGRESS, actions never create games, so
every later call also returns null. -/
def oracleConsistent (oracle : Nat → BlackjackAction → Option GameState) : Prop :=
  ∀ i j a b, i ≤ j → oracle i a = none → oracle j b = none

/-- A concrete finished game used to exercise the settlement path: a push
(`amountWon == bet`). -/
def doneGame : GameState :=
  { playerId := "p", channelId := "c", bet := 10, amountWon := 10,
    stage := BlackjackStage.DONE, surrendered := false,
    playerCards := [], dealerCards := [], playerValue := [20], dealerValue := [20] }

/-- A concrete in-progress game used to exercise the QUIT transition. -/
def inProgressGame : GameState :=
  { playerId := "p", channelId := "c", bet := 10, amountWon := 0,
    stage := BlackjackStage.IN_PROGRESS, surrendered := false,
    playerCards := [], dealerCards := [], playerValue := [20], dealerValue := [11] }

/-- An engine oracle that always reports no active game. -/
def trivialOracle : Nat → BlackjackAction → Option GameState := fun _ _ => none

/-- A concrete environment whose game is already finished at deal time. -/
def envSettled : Env :=
  { argsFinished := true, argsParsed := none, playerBalance := 100,
    startGameResult := some doneGame, oracle := trivialOracle, inputs := [] }

/-- A concrete environment with an out-of-range bet argument. -/
def envBadBet : Env :=
  { argsFinished := false, argsParsed := some 5, playerBalance := 100,
    startGameResult := none, oracle := trivialOracle, inputs := [] }

/-- A concrete environment where the player already has an active game. -/
def envActiveGame : Env :=
  { argsFinished := true, argsParsed := none, playerBalance := 100,
    startGameResult := none, oracle := trivialOracle, inputs := [] }

/-- A concrete environment whose player cannot cover the default bet. -/
def envPoor : Env :=
  { argsFinished := true, argsParsed := none, playerBalance := 3,
    startGameResult := none, oracle := trivialOracle, inputs := [] }

/-! ## Helper lemmas -/

/-- The catch block makes exactly one engine call, submitting QUIT, and ends
with a null game exactly when that call returned null. -/
theorem loopCatch_spec (oracle : Nat → BlackjackAction → Option GameState)
    (k : Nat) (acc : List EngineCall) :
    (loopCatch oracle k acc).calls
        = acc ++ [(BlackjackAction.QUIT, oracle k BlackjackAction.QUIT)] ∧
    ((loopCatch oracle k acc).game = none ↔ oracle k BlackjackAction.QUIT = none) := by
  unfold loopCatch
  cases oracle k BlackjackAction.QUIT <;> simp

/-- Under the engine consistency property, an iteration that saw a null
engine reply ends with the game variable null. -/
theorem loopIter_null (oracle : Nat → BlackjackAction → Option GameState)
    (hcons : oracleConsistent oracle) (k : Nat) (input : LoopInput)
    (a : BlackjackAction)
    (h : (a, (none : Option GameState)) ∈ (loopIter oracle k input).calls) :
    (loopIter oracle k input).game = none := by
  cases input with
  | timeout =>
    simp only [loopIter] at h ⊢
    obtain ⟨hc, hg⟩ := loopCatch_spec oracle k []
    rw [hc] at h
    simp at h
    exact hg.mpr h.2.symm
  | reaction r =>
    cases he : blackjackActionFromEmoji r.emojiName with
    | none =>
      simp only [loopIter, he] at h ⊢
      obtain ⟨hc, hg⟩ := loopCatch_spec oracle k []
      rw [hc] at h
      simp at h
      exact hg.mpr h.2.symm
    | some act =>
      simp only [loopIter, he] at h ⊢
      cases ho : oracle k act with
      | some g' =>
        rw [ho] at h
        simp [afterAction] at h
      | none =>
        simp only [afterAction] at h ⊢
        exact (loopCatch_spec oracle (k + 1) [(act, none)]).2.mpr
          (hcons k (k + 1) act BlackjackAction.QUIT (Nat.le_succ k) ho)

/-- A loop exit value that is a non-null game has stage DONE: the loop only
exits a non-null game when its guard `game?.stage != DONE` fails. -/
theorem runLoop_done (oracle : Nat → BlackjackAction → Option GameState) :
    ∀ (inputs : List LoopInput) (k : Nat) (game : Option GameState) (g : GameState),
      (runLoop oracle k inputs game).res = some (some g) →
      g.stage = BlackjackStage.DONE := by
  intro inputs
  induction inputs with
  | nil =>
    intro k game g h
    cases game with
    | none => simp [runLoop] at h
    | some g0 =>
      by_cases hd : g0.stage = BlackjackStage.DONE
      · simp only [runLoop, if_pos hd] at h
        obtain rfl : g0 = g := by simpa using h
        exact hd
      · simp [runLoop, hd] at h
  | cons input rest ih =>
    intro k game g h
    cases game with
    | none => simp [runLoop] at h
    | some g0 =>
      by_cases hd : g0.stage = BlackjackStage.DONE
      · simp only [runLoop, if_pos hd] at h
        obtain rfl : g0 = g := by simpa using h
        exact hd
      · simp only [runLoop, if_neg hd] at h
        exact ih _ _ _ h

/-- Under the engine consistency property, a run of the loop that ever saw a
null engine reply exits with the game variable null. -/
theorem runLoop_null (oracle : Nat → BlackjackAction → Option GameState)
    (hcons : oracleConsistent oracle) :
    ∀ (inputs : List LoopInput) (k : Nat) (game : Option GameState)
      (a : BlackjackAction),
      (a, (none : Option GameState)) ∈ (runLoop oracle k inputs game).calls →
      (runLoop oracle k inputs game).res = some none := by
  intro inputs
  induction inputs with
  | nil =>
    intro k game a h
    cases game with
    | none => simp [runLoop] at h
    | some g0 =>
      by_cases hd : g0.stage = BlackjackStage.DONE <;> simp [runLoop, hd] at h
  | cons input rest ih =>
    intro k game a h
    cases game with
    | none => simp [runLoop] at h
    | some g0 =>
      by_cases hd : g0.stage = BlackjackStage.DONE
      · simp [runLoop, hd] at h
      · simp only [runLoop, if_neg hd] at h ⊢
        rw [List.mem_append] at h
        cases h with
        | inl hin =>
          rw [loopIter_null oracle hcons k input a hin]
          simp [runLoop]
        | inr hin => exact ih _ _ a hin

/-- The settled trace records exactly the loop's engine calls. -/
theorem settleTrace_calls (r : LoopResult) :
    (settleTrace r).engineCalls = r.calls := by
  rcases r with ⟨res, calls⟩
  cases res with
  | none => rfl
  | some og => cases og <;> rfl

/-- The settled trace always records that `startGame` was invoked. -/
theorem settleTrace_startGame (r : LoopResult) :
    (settleTrace r).startGameCalled = true := by
  rcases r with ⟨res, calls⟩
  cases res with
  | none => rfl
  | some og => cases og <;> rfl

/-- Inversion for a settled trace with a non-null final game. -/
theorem settleTrace_finalGame (r : LoopResult) (g : GameState)
    (h : (settleTrace r).finalGame = some (some g)) :
    r.res = some (some g) ∧ (settleTrace r).endGameCalled = true ∧
    (settleTrace r).balanceAdjusted = some (getBalanceChange g) := by
  rcases r with ⟨res, calls⟩
  cases res with
  | none => simp [settleTrace] at h
  | some og =>
    cases og with
    | none => simp [settleTrace] at h
    | some g' =>
      obtain rfl : g' = g := by simpa [settleTrace] using h
      exact ⟨rfl, rfl, rfl⟩

/-- Inversion for a settled trace that called `endGame`. -/
theorem settleTrace_endGame (r : LoopResult)
    (h : (settleTrace r).endGameCalled = true) :
    ∃ g, r.res = some (some g) ∧ (settleTrace r).finalGame = some (some g) := by
  rcases r with ⟨res, calls⟩
  cases res with
  | none => simp [settleTrace] at h
  | some og =>
    cases og with
    | none => simp [settleTrace] at h
    | some g => exact ⟨g, rfl, rfl⟩

/-- A loop that exited with a null game is not settled: no `endGame`, no
balance adjustment. -/
theorem settleTrace_none (r : LoopResult) (h : r.res = some none) :
    (settleTrace r).endGameCalled = false ∧
    (settleTrace r).balanceAdjusted = none := by
  unfold settleTrace
  rw [h]
  exact ⟨rfl, rfl⟩

/-- Every `messageRun` execution either raises a user error (with no engine
calls and no settlement), or starts a game and produces the settled trace of
the game loop. -/
theorem messageRun_inv (env : Env) :
    (∃ e b, messageRun env = errTrace e b) ∨
    (∃ game0, env.startGameResult = some game0 ∧
      messageRun env = settleTrace (runLoop env.oracle 0 env.inputs (some game0))) := by
  cases hres : resolvedBet env with
  | none =>
    refine Or.inl ⟨UserErrorMsg.invalidBetAmount, false, ?_⟩
    simp only [messageRun, hres]
  | some bet =>
    by_cases hv : validateBetAmount bet = ""
    · by_cases hbal : env.playerBalance < bet
      · refine Or.inl ⟨UserErrorMsg.insufficientBalance, false, ?_⟩
        simp only [messageRun, hres, if_pos hv, if_pos hbal]
      · cases hs : env.startGameResult with
        | none =>
          refine Or.inl ⟨UserErrorMsg.gameAlreadyActive, true, ?_⟩
          simp only [messageRun, hres, if_pos hv, if_neg hbal, hs]
        | some game0 =>
          refine Or.inr ⟨game0, rfl, ?_⟩
          simp only [messageRun, hres, if_pos hv, if_neg hbal, hs]
    · refine Or.inl ⟨UserErrorMsg.betValidation (validateBetAmount bet), false, ?_⟩
      simp only [messageRun, hres, if_neg hv]

/-! ## Claims -/

/-- C1: for every finished game state, the net balance change passed to the
balance adjustment at settlement is exactly `getBalanceChange(game)`, which
equals `amountWon - bet`; a push (`amountWon == bet`) yields a zero net
change. -/
theorem settlement_delta_is_amountWon_sub_bet (env : Env) (g : GameState)
    (h : (messageRun env).finalGame = some (some g)) :
    (messageRun env).balanceAdjusted = some (getBalanceChange g) ∧
    getBalanceChange g = g.amountWon - g.bet ∧
    (g.amountWon = g.bet → (messageRun env).balanceAdjusted = some 0) := by
  rcases messageRun_inv env with ⟨e, b, hm⟩ | ⟨game0, hs, hm⟩
  · rw [hm] at h
    simp [errTrace] at h
  · rw [hm] at h ⊢
    obtain ⟨hres, hend, hadj⟩ := settleTrace_finalGame _ g h
    refine ⟨hadj, rfl, fun hpush => ?_⟩
    rw [hadj]
    simp [getBalanceChange, hpush]

theorem settlement_delta_witness :
    (messageRun envSettled).balanceAdjusted = some (getBalanceChange doneGame) ∧
    getBalanceChange doneGame = doneGame.amountWon - doneGame.bet ∧
    (doneGame.amountWon = doneGame.bet →
      (messageRun envSettled).balanceAdjusted = some 0) :=
  settlement_delta_is_amountWon_sub_bet envSettled doneGame (by rfl)

/-- C2: the reaction collector's timeout is fixed at 60000 ms, and a timed
out iteration submits exactly one action on the player's behalf, namely
QUIT. -/
theorem timeout_submits_quit :
    awaitReactionsTime = 60000 ∧
    ∀ (oracle : Nat → BlackjackAction → Option GameState) (k : Nat),
      (loopIter oracle k LoopInput.timeout).calls.map Prod.fst
        = [BlackjackAction.QUIT] := by
  refine ⟨rfl, fun oracle k => ?_⟩
  simp only [loopIter]
  rw [(loopCatch_spec oracle k []).1]
  simp

/-- C3: `validateBetAmount` returns a non-empty string exactly for bets
below 10 or above 1000000, and whenever it does, `messageRun` raises that
string as a user error and never reaches `startGame`, the engine, or the
balance adjustment. -/
theorem bet_bounds_enforced :
    (∀ amount : Int, validateBetAmount amount ≠ "" ↔ (amount < 10 ∨ amount > 1000000)) ∧
    (∀ (env : Env) (b : Int), resolvedBet env = some b → validateBetAmount b ≠ "" →
      (messageRun env).userError = some (UserErrorMsg.betValidation (validateBetAmount b)) ∧
      (messageRun env).startGameCalled = false ∧
      (messageRun env).engineCalls = [] ∧
      (messageRun env).balanceAdjusted = none) := by
  constructor
  · intro amount
    unfold validateBetAmount MIN_BET MAX_BET
    by_cases h1 : amount < 10
    · rw [if_pos h1]
      exact ⟨fun _ => Or.inl h1, fun _ => by decide⟩
    · rw [if_neg h1]
      by_cases h2 : amount > 1000000
      · rw [if_pos h2]
        exact ⟨fun _ => Or.inr h2, fun _ => by decide⟩
      · rw [if_neg h2]
        constructor
        · intro hne
          exact absurd rfl hne
        · intro hor
          exfalso
          rcases hor with h | h
          · exact h1 h
          · exact h2 h
  · intro env b hres hval
    simp [messageRun, hres, hval, errTrace]

theorem bet_bounds_enforced_witness :
    ((5 : Int) < 10 ∨ (5 : Int) > 1000000) ∧
    (messageRun envBadBet).userError
        = some (UserErrorMsg.betValidation (validateBetAmount 5)) ∧
    (messageRun envBadBet).startGameCalled = false ∧
    (messageRun envBadBet).engineCalls = [] ∧
    (messageRun envBadBet).balanceAdjusted = none :=
  ⟨(bet_bounds_enforced.1 5).mp (by decide),
    bet_bounds_enforced.2 envBadBet 5 rfl (by decide)⟩

/-- C4: the engine's `startGame` returns null for a player with an active
game, and `messageRun` handles that null by raising the
game-already-active user error, with no game loop, no engine calls, no
`endGame` and no balance adjustment. -/
theorem startGame_null_reported (env : Env) (b : Int)
    (hres : resolvedBet env = some b) (hv : validateBetAmount b = "")
    (hbal : ¬ env.playerBalance < b) (hs : env.startGameResult = none) :
    (∀ g fresh : GameState, startGameSpec (some g) fresh = none) ∧
    (messageRun env).userError = some UserErrorMsg.gameAlreadyActive ∧
    (messageRun env).engineCalls = [] ∧
    (messageRun env).endGameCalled = false ∧
    (messageRun env).balanceAdjusted = none := by
  refine ⟨fun g fresh => rfl, ?_⟩
  simp [messageRun, hres, hv, hbal, hs, errTrace]

theorem startGame_null_reported_witness :
    startGameSpec (some doneGame) inProgressGame = none ∧
    (messageRun envActiveGame).userError = some UserErrorMsg.gameAlreadyActive ∧
    (messageRun envActiveGame).engineCalls = [] ∧
    (messageRun envActiveGame).endGameCalled = false ∧
    (messageRun envActiveGame).balanceAdjusted = none :=
  ⟨(startGame_null_reported envActiveGame 10 rfl (by decide) (by decide) rfl).1
      doneGame inProgressGame,
    (startGame_null_reported envActiveGame 10 rfl (by decide) (by decide) rfl).2⟩

/-- C5: a balance strictly below the bet makes `messageRun` raise a user
error before `startGame` is ever invoked; when the bet itself was valid,
that error is the insufficient-balance message. -/
theorem insufficient_balance_blocks_start (env : Env) (b : Int)
    (hres : resolvedBet env = some b) (hbal : env.playerBalance < b) :
    (∃ e, (messageRun env).userError = some e) ∧
    (messageRun env).startGameCalled = false ∧
    (validateBetAmount b = "" →
      (messageRun env).userError = some UserErrorMsg.insufficientBalance) := by
  by_cases hv : validateBetAmount b = ""
  · have hm : messageRun env = errTrace UserErrorMsg.insufficientBalance false := by
      simp [messageRun, hres, hv, hbal]
    rw [hm]
    exact ⟨⟨_, rfl⟩, rfl, fun _ => rfl⟩
  · have hm : messageRun env
        = errTrace (UserErrorMsg.betValidation (validateBetAmount b)) false := by
      simp [messageRun, hres, hv]
    rw [hm]
    exact ⟨⟨_, rfl⟩, rfl, fun h => absurd h hv⟩

theorem insufficient_balance_witness :
    (∃ e, (messageRun envPoor).userError = some e) ∧
    (messageRun envPoor).startGameCalled = false ∧
    (validateBetAmount 10 = "" →
      (messageRun envPoor).userError = some UserErrorMsg.insufficientBalance) :=
  insufficient_balance_blocks_start envPoor 10 rfl (by decide)

/-- C6: `endGame` is invoked only when the loop exited with a non-null game
whose stage is DONE, and whenever the engine ever returned null to the loop,
the loop exits without `endGame` and without a balance adjustment (given the
engine consistency the spec implies: a null reply is never followed by a
non-null one). -/
theorem endGame_only_after_done (env : Env) (hcons : oracleConsistent env.oracle) :
    ((messageRun env).endGameCalled = true →
      ∃ g, (messageRun env).finalGame = some (some g) ∧
        g.stage = BlackjackStage.DONE) ∧
    (∀ a, (a, (none : Option GameState)) ∈ (messageRun env).engineCalls →
      (messageRun env).endGameCalled = false ∧
      (messageRun env).balanceAdjusted = none) := by
  rcases messageRun_inv env with ⟨e, b, hm⟩ | ⟨game0, hs, hm⟩
  · rw [hm]
    constructor
    · intro hend
      simp [errTrace] at hend
    · intro a hmem
      simp [errTrace] at hmem
  · rw [hm]
    constructor
    · intro hend
      obtain ⟨g, hres, hfg⟩ := settleTrace_endGame _ hend
      exact ⟨g, hfg, runLoop_done env.oracle env.inputs 0 (some game0) g hres⟩
    · intro a hmem
      rw [settleTrace_calls] at hmem
      exact settleTrace_none _ (runLoop_null env.oracle hcons env.inputs 0 (some game0) a hmem)

theorem endGame_only_after_done_witness :
    ∃ g, (messageRun envSettled).finalGame = some (some g) ∧
      g.stage = BlackjackStage.DONE :=
  (endGame_only_after_done envSettled (fun _ _ _ _ _ _ => rfl)).1 (by rfl)

/-- C7: performing QUIT on an in-progress game yields a state with
`surrendered = true`, `amountWon = 0` and stage DONE, whatever the hands
are, and the caller's subsequent `game.stage = DONE` assignment leaves that
state unchanged. -/
theorem quit_surrenders_and_finishes (g : GameState)
    (h : g.stage = BlackjackStage.IN_PROGRESS) :
    performQuit (some g) = some (quitTransition g) ∧
    (quitTransition g).surrendered = true ∧
    (quitTransition g).amountWon = 0 ∧
    (quitTransition g).stage = BlackjackStage.DONE ∧
    { quitTransition g with stage := BlackjackStage.DONE } = quitTransition g := by
  refine ⟨?_, rfl, rfl, rfl, rfl⟩
  show (if g.stage = BlackjackStage.IN_PROGRESS then some (quitTransition g) else none)
      = some (quitTransition g)
  rw [if_pos h]

theorem quit_surrenders_witness :
    performQuit (some inProgressGame) = some (quitTransition inProgressGame) ∧
    (quitTransition inProgressGame).surrendered = true ∧
    (quitTransition inProgressGame).amountWon = 0 ∧
    (quitTransition inProgressGame).stage = BlackjackStage.DONE ∧
    { quitTransition inProgressGame with stage := BlackjackStage.DONE }
      = quitTransition inProgressGame :=
  quit_surrenders_and_finishes inProgressGame rfl

/-- C8: `reactFilter` admits exactly the emojis 🇸, 🇭, 🇶 from the game's
own player, and `performActionFromReaction` maps 🇸 to STAND, 🇭 to HIT and
🇶 to QUIT, calling the engine only on those and returning null on any
other or absent reaction. -/
theorem reaction_action_mapping :
    (∀ (r : MessageReaction) (u : User) (authorId : String),
        reactFilter r u authorId = true ↔
          ((r.emojiName = some "🇸" ∨ r.emojiName = some "🇭" ∨
              r.emojiName = some "🇶") ∧ u.id = authorId)) ∧
    blackjackActionFromEmoji (some "🇸") = some BlackjackAction.STAND ∧
    blackjackActionFromEmoji (some "🇭") = some BlackjackAction.HIT ∧
    blackjackActionFromEmoji (some "🇶") = some BlackjackAction.QUIT ∧
    blackjackActionFromEmoji none = none ∧
    (∀ e : String, e ≠ "🇸" → e ≠ "🇭" → e ≠ "🇶" →
      blackjackActionFromEmoji (some e) = none) ∧
    (∀ (engine : BlackjackAction → Option GameState) (c : Option MessageReaction),
        blackjackActionFromEmoji (c.bind MessageReaction.emojiName) = none →
        performActionFromReaction engine c = none) ∧
    (∀ (engine : BlackjackAction → Option GameState) (c : Option MessageReaction)
        (g : GameState),
        performActionFromReaction engine c = some g →
        ∃ a, blackjackActionFromEmoji (c.bind MessageReaction.emojiName) = some a ∧
          engine a = some g) := by
  refine ⟨?_, rfl, rfl, rfl, rfl, ?_, ?_, ?_⟩
  · intro r u authorId
    rcases r with ⟨en⟩
    cases en with
    | none => simp [reactFilter]
    | some n => simp [reactFilter, or_assoc]
  · intro e h1 h2 h3
    show (if e = "🇸" then some BlackjackAction.STAND
        else if e = "🇭" then some BlackjackAction.HIT
        else if e = "🇶" then some BlackjackAction.QUIT
        else none) = none
    rw [if_neg h1, if_neg h2, if_neg h3]
  · intro engine c h
    unfold performActionFromReaction
    rw [h]
  · intro engine c g h
    unfold performActionFromReaction at h
    cases he : blackjackActionFromEmoji (c.bind MessageReaction.emojiName) with
    | none =>
      rw [he] at h
      simp at h
    | some a =>
      rw [he] at h
      exact ⟨a, rfl, h⟩

theorem reaction_action_mapping_witness :
    reactFilter ⟨some "🇸"⟩ ⟨"abc"⟩ "abc" = true ∧
    blackjackActionFromEmoji (some "🇦") = none ∧
    performActionFromReaction (fun _ => none) (some ⟨some "🇦"⟩) = none :=
  ⟨(reaction_action_mapping.1 ⟨some "🇸"⟩ ⟨"abc"⟩ "abc").mpr ⟨Or.inl rfl, rfl⟩,
    reaction_action_mapping.2.2.2.2.2.1 "🇦" (by decide) (by decide) (by decide),
    reaction_action_mapping.2.2.2.2.2.2.1 (fun _ => none) (some ⟨some "🇦"⟩)
      (reaction_action_mapping.2.2.2.2.2.1 "🇦" (by decide) (by decide) (by decide))⟩

/-- C9: the embed colour is a total function of stage and the sign of
`amountWon - bet`: Yellow unless DONE, then Red for `amountWon` below the
bet, Green for above, Orange for a push. -/
theorem embed_colour_total (g : GameState) :
    (g.stage ≠ BlackjackStage.DONE → getEmbedColourFromGame g = "Yellow") ∧
    (g.stage = BlackjackStage.DONE →
      (g.amountWon < g.bet → getEmbedColourFromGame g = "Red") ∧
      (g.amountWon > g.bet → getEmbedColourFromGame g = "Green") ∧
      (g.amountWon = g.bet → getEmbedColourFromGame g = "Orange")) := by
  unfold getEmbedColourFromGame getBalanceChange
  constructor
  · intro h
    rw [if_neg h]
  · intro h
    rw [if_pos h]
    refine ⟨fun hlt => ?_, fun hgt => ?_, fun heq => ?_⟩
    · rw [if_pos (by omega)]
    · rw [if_neg (by omega), if_pos (by omega)]
    · rw [if_neg (by omega), if_neg (by omega)]

theorem embed_colour_witness : getEmbedColourFromGame doneGame = "Orange" :=
  ((embed_colour_total doneGame).2 rfl).2.2 rfl

/-- C10: with no bet argument the bet resolves to the default of 10, which
equals the minimum bet, passes `validateBetAmount`, and the run proceeds to
the balance check (insufficient-balance error or `startGame`). -/
theorem default_bet_passes_validation (env : Env) (h : env.argsFinished = true) :
    resolvedBet env = some DEFAULT_BET ∧
    DEFAULT_BET = 10 ∧ DEFAULT_BET = MIN_BET ∧
    validateBetAmount DEFAULT_BET = "" ∧
    (env.playerBalance < DEFAULT_BET →
      (messageRun env).userError = some UserErrorMsg.insufficientBalance) ∧
    (¬ env.playerBalance < DEFAULT_BET →
      (messageRun env).startGameCalled = true) := by
  have hres : resolvedBet env = some DEFAULT_BET := by
    simp [resolvedBet, h]
  have hv : validateBetAmount DEFAULT_BET = "" := by decide
  refine ⟨hres, rfl, rfl, hv, ?_, ?_⟩
  · intro hbal
    simp [messageRun, hres, hv, hbal, errTrace]
  · intro hbal
    simp only [messageRun, hres, hv, hbal]
    cases hsg : env.startGameResult with
    | none => rfl
    | some game0 => exact settleTrace_startGame _

theorem default_bet_witness :
    resolvedBet envSettled = some DEFAULT_BET ∧
    DEFAULT_BET = 10 ∧ DEFAULT_BET = MIN_BET ∧
    validateBetAmount DEFAULT_BET = "" ∧
    (envSettled.playerBalance < DEFAULT_BET →
      (messageRun envSettled).userError = some UserErrorMsg.insufficientBalance) ∧
    (¬ envSettled.playerBalance < DEFAULT_BET →
      (messageRun envSettled).startGameCalled = true) :=
  default_bet_passes_validation envSettled rfl

end Blackjack
